import Mathlib

/-!
Verification of the build-task execution core of the `vscode-rust` repository.

The development shallowly embeds the three components the specification
describes — the Diagnostic Parser (`diagnostic_parser.ts`), the Process
Runner (`CargoTask` in `output_channel_cargo_task.ts`) and the Task
Coordinator (`CargoTaskManager.runCargo` and friends) — and proves or
refutes the specification's claims about them.

Modelling conventions:
* TypeScript numbers that the code only ever uses as integers (wire-format
  line/column positions, exit codes, timestamps) are embedded as `Int`;
  the tool's wire format only carries integers in the consumed fields.
* Optional / nullable fields become `Option`; JavaScript truthiness tests
  on them are modelled by explicit truthiness functions.
* Code that can throw returns `Except JsError`; a thrown exception
  propagates before any later field mutation, so state components are
  returned unchanged alongside an `.error`.
-/

namespace VscodeRust

/-! ## Diagnostic data model (`diagnostic_parser.ts`)

`FileDiagnostic` is `{ filePath, diagnostic }` where `diagnostic` is a
vscode `Diagnostic(range, message, severity)`; `Range` is embedded as a
plain record of the four 0-based coordinates. -/

inductive DiagnosticSeverity where
  | Error
  | Warning
  | Information
  | Hint
deriving DecidableEq, Repr

structure Range where
  startLine : Int
  startCol : Int
  endLine : Int
  endCol : Int
deriving DecidableEq, Repr

structure Diagnostic where
  range : Range
  message : String
  severity : DiagnosticSeverity
deriving DecidableEq, Repr

structure FileDiagnostic where
  filePath : String
  diagnostic : Diagnostic
deriving DecidableEq, Repr

/-- `CompilerMessageCode`: only the `code` field is ever read
(`compilerMessage.code.code`); the unread `explanation` field is omitted. -/
structure CompilerMessageCode where
  code : String
deriving DecidableEq, Repr

/-- A node of the loosely-typed `children` tree (`child.level`,
`child.message`, `child.children` are the only fields `childrenToString`
reads). -/
inductive CompilerMessageChild where
  | mk (level : String) (message : String) (children : List CompilerMessageChild)

def CompilerMessageChild.level : CompilerMessageChild → String
  | .mk l _ _ => l

def CompilerMessageChild.message : CompilerMessageChild → String
  | .mk _ m _ => m

def CompilerMessageChild.children : CompilerMessageChild → List CompilerMessageChild
  | .mk _ _ c => c

/-- `CompilerMessageSpan`, restricted to the fields the parser reads.
`expansion` is only ever tested for truthiness
(`if (compilerMessage.spans[0].expansion)`), so only its truthiness is
kept; `byte_start`, `byte_end`, `text` and `suggested_replacement` are
never read and are omitted. -/
structure CompilerMessageSpan where
  column_end : Int
  column_start : Int
  expansion : Bool
  file_name : String
  is_primary : Bool
  label : Option String
  line_end : Int
  line_start : Int
deriving DecidableEq, Repr, Inhabited

structure CompilerMessage where
  children : List CompilerMessageChild
  code : Option CompilerMessageCode
  level : String
  message : String
  spans : List CompilerMessageSpan

/-- The tagged union `CargoMessageWithCompilerArtifact |
CargoMessageWithCompilerMessage`: the code only distinguishes
`reason === 'compiler-message'` from everything else. -/
inductive ToolEvent where
  | compilerMessage (message : CompilerMessage)
  | other

/-- Exceptions the parser can raise. -/
inductive JsError where
  | jsonError   -- `JSON.parse` threw a `SyntaxError`
  | typeError   -- a field access on `undefined`/`null` threw a `TypeError`
  | spansEmpty  -- `throw new Error('A compiler message must have spans')`
deriving DecidableEq, Repr

/-- JavaScript truthiness of the optional string field `label`
(`null`/`undefined` and the empty string are falsy). -/
def strTruthy : Option String → Bool
  | none => false
  | some s => !(s == "")

/-! ## `DiagnosticParser` (`diagnostic_parser.ts`)

The parser object's single mutable field `complexMessageIndex` is threaded
explicitly: each function takes the field's value and returns its value
after the call. -/

/-- The constructor: `this.complexMessageIndex = 0`. -/
def DiagnosticParser.initialComplexMessageIndex : Nat := 0

/-- `toSeverity`: the `switch` over the level string. -/
def toSeverity (severity : String) : DiagnosticSeverity :=
  if severity = "warning" then .Warning
  else if severity = "note" then .Information
  else if severity = "help" then .Hint
  else .Error

/-- `'  '.repeat(level)`. -/
def indentation (level : Nat) : String :=
  String.mk (List.replicate (2 * level) ' ')

mutual

/-- `childrenToString`: renders the children tree depth-first; each child
contributes `"\n" + indentation + level + ": " + message` and then its own
children at `level + 1` (the `if (child.children)` guard is a truthiness
test; an absent list renders nothing, exactly like the empty list). -/
def childrenToString (children : List CompilerMessageChild) (level : Nat) : String :=
  match children with
  | [] => ""
  | child :: rest => childToString child level ++ childrenToString rest level

/-- One iteration of the `for (const child of children)` loop body. -/
def childToString (child : CompilerMessageChild) (level : Nat) : String :=
  match child with
  | .mk lvl msg cs =>
    "\n" ++ indentation level ++ lvl ++ ": " ++ msg ++ childrenToString cs (level + 1)

end

/-- The `if (compilerMessage.code) { message += code.code + ': ' }` step,
shared by the simple and the complex path. -/
def codeSegment (compilerMessage : CompilerMessage) : String :=
  match compilerMessage.code with
  | some c => c.code ++ ": "
  | none => ""

/-- `new Range(span.line_start - 1, span.column_start - 1,
span.line_end - 1, span.column_end - 1)`. -/
def rangeOfSpan (span : CompilerMessageSpan) : Range :=
  ⟨span.line_start - 1, span.column_start - 1, span.line_end - 1, span.column_end - 1⟩

/-- `isComplexCompilerMessage`. -/
def isComplexCompilerMessage (compilerMessage : CompilerMessage) : Except JsError Bool :=
  if compilerMessage.spans.length = 0 then .error .spansEmpty
  else if compilerMessage.spans.length > 1 then .ok true
  else if (compilerMessage.spans.headD default).expansion then .ok true
  else .ok false

/-- One iteration of the loop body of `parseComplexCompilerMessage`: the
diagnostic pushed for `span`, or `none` for the `continue` branch (a
non-primary span without a truthy label). -/
def complexSpanDiagnostic (complexMessageIndex : Nat) (compilerMessage : CompilerMessage)
    (span : CompilerMessageSpan) : Option FileDiagnostic :=
  let range := rangeOfSpan span
  let message := "(" ++ toString complexMessageIndex ++ ") " ++ codeSegment compilerMessage
  if span.is_primary then
    let message := message ++ compilerMessage.message
    let message :=
      if strTruthy span.label then message ++ "\n" ++ span.label.getD "" else message
    let message := message ++ childrenToString compilerMessage.children 1
    some ⟨span.file_name, ⟨range, message, toSeverity compilerMessage.level⟩⟩
  else if strTruthy span.label then
    some ⟨span.file_name, ⟨range, message ++ span.label.getD "", toSeverity compilerMessage.level⟩⟩
  else
    none

/-- `parseComplexCompilerMessage`: the loop over all spans, collecting the
pushed diagnostics in order. -/
def parseComplexCompilerMessage (complexMessageIndex : Nat)
    (compilerMessage : CompilerMessage) : List FileDiagnostic :=
  compilerMessage.spans.filterMap (complexSpanDiagnostic complexMessageIndex compilerMessage)

/-- `parseSimpleCompilerMessage`: builds the single diagnostic from
`spans[0]` (on an empty span list the field accesses on `undefined` would
throw; the caller guards against that). -/
def parseSimpleCompilerMessage (compilerMessage : CompilerMessage) :
    Except JsError (List FileDiagnostic) :=
  match compilerMessage.spans with
  | [] => .error .typeError
  | span :: _ =>
    let range := rangeOfSpan span
    let message := codeSegment compilerMessage ++ compilerMessage.message
    let message :=
      if strTruthy span.label then message ++ "\n" ++ span.label.getD "" else message
    let message := message ++ childrenToString compilerMessage.children 1
    .ok [⟨span.file_name, ⟨range, message, toSeverity compilerMessage.level⟩⟩]

/-- `parseCompilerMessage`: empty span list short-circuits to `[]`;
complex messages pre-increment `complexMessageIndex` and take the complex
path with the incremented value; simple messages leave the counter alone. -/
def parseCompilerMessage (complexMessageIndex : Nat) (compilerMessage : CompilerMessage) :
    Except JsError (List FileDiagnostic) × Nat :=
  if compilerMessage.spans.length = 0 then (.ok [], complexMessageIndex)
  else
    match isComplexCompilerMessage compilerMessage with
    | .error e => (.error e, complexMessageIndex)
    | .ok true =>
      let idx := complexMessageIndex + 1
      (.ok (parseComplexCompilerMessage idx compilerMessage), idx)
    | .ok false => (parseSimpleCompilerMessage compilerMessage, complexMessageIndex)

/-- `parseLine` after the `JSON.parse` step: dispatch on the decoded
event's `reason`. -/
def parseLineEvent (complexMessageIndex : Nat) (event : ToolEvent) :
    Except JsError (List FileDiagnostic) × Nat :=
  match event with
  | .compilerMessage m => parseCompilerMessage complexMessageIndex m
  | .other => (.ok [], complexMessageIndex)

/-! ## JSON values and a model of `JSON.parse`

`parseLine` starts with `JSON.parse(line)`, which throws a `SyntaxError`
on input that is not valid JSON. `jsonParse` models it: `none` exactly
when `JSON.parse` throws. Numeric values are embedded as `Int` (the wire
format only carries integers in the fields the parser consumes); the
number *grammar* accepted is the full JSON grammar, with fraction and
exponent parts parsed but only the integer part retained. -/

inductive Json where
  | null
  | bool (b : Bool)
  | num (n : Int)
  | str (s : String)
  | arr (elems : List Json)
  | obj (fields : List (String × Json))

/-- JSON whitespace (space, tab, line feed, carriage return). -/
def isJsonWs (c : Char) : Bool :=
  c == ' ' || c == '\t' || c == '\n' || c == '\r'

def skipWs : List Char → List Char
  | [] => []
  | c :: rest => if isJsonWs c then skipWs rest else c :: rest

def digitsToNat (ds : List Char) : Nat :=
  ds.foldl (fun acc d => acc * 10 + (d.toNat - '0'.toNat)) 0

def isHexDigitChar (c : Char) : Bool :=
  c.isDigit || ('a' ≤ c && c ≤ 'f') || ('A' ≤ c && c ≤ 'F')

def hexDigitToNat (c : Char) : Nat :=
  if c.isDigit then c.toNat - '0'.toNat
  else if 'a' ≤ c && c ≤ 'f' then c.toNat - 'a'.toNat + 10
  else c.toNat - 'A'.toNat + 10

/-- Parse the integer part of a JSON number (`0` or a nonzero digit
followed by digits; a leading zero followed by a digit is a syntax
error). -/
def parseIntPart (cs : List Char) : Option (Nat × List Char) :=
  match cs with
  | [] => none
  | c :: rest =>
    if c = '0' then
      match rest with
      | d :: _ => if d.isDigit then none else some (0, rest)
      | [] => some (0, rest)
    else if c.isDigit then
      let ds := (c :: rest).takeWhile Char.isDigit
      some (digitsToNat ds, (c :: rest).dropWhile Char.isDigit)
    else none

/-- Parse the optional fraction part; its digits are consumed but the
value is truncated to the integer part (see the header note). -/
def parseFracPart (cs : List Char) : Option (List Char) :=
  match cs with
  | '.' :: rest =>
    match rest with
    | d :: _ =>
      if d.isDigit then some (rest.dropWhile Char.isDigit) else none
    | [] => none
  | _ => some cs

/-- Parse the optional exponent part (likewise consumed, not applied). -/
def parseExpPart (cs : List Char) : Option (List Char) :=
  match cs with
  | c :: rest =>
    if c = 'e' || c = 'E' then
      let rest2 := match rest with
        | s :: r => if s = '+' || s = '-' then r else rest
        | [] => rest
      match rest2 with
      | d :: _ => if d.isDigit then some (rest2.dropWhile Char.isDigit) else none
      | [] => none
    else some cs
  | [] => some cs

def parseNumber (cs : List Char) : Option (Int × List Char) :=
  let (neg, cs1) := match cs with
    | '-' :: r => (true, r)
    | _ => (false, cs)
  match parseIntPart cs1 with
  | none => none
  | some (n, cs2) =>
    match parseFracPart cs2 with
    | none => none
    | some cs3 =>
      match parseExpPart cs3 with
      | none => none
      | some cs4 => some (if neg then -(n : Int) else (n : Int), cs4)

/-- Parse the body of a JSON string after the opening quote, returning the
decoded characters and the input after the closing quote. Raw control
characters below U+0020 are a syntax error; the escapes are those of the
JSON grammar (`\u` escapes are decoded to the code unit; surrogate pairs
are not recombined, which does not affect syntax validity). -/
def parseStringBody (fuel : Nat) (cs : List Char) : Option (List Char × List Char) :=
  match fuel, cs with
  | 0, _ => none
  | _, [] => none
  | fuel + 1, c :: rest =>
    if c = '"' then some ([], rest)
    else if c = '\\' then
      match rest with
      | [] => none
      | e :: rest2 =>
        let decoded : Option (Char × List Char) :=
          if e = '"' then some ('"', rest2)
          else if e = '\\' then some ('\\', rest2)
          else if e = '/' then some ('/', rest2)
          else if e = 'b' then some (Char.ofNat 8, rest2)
          else if e = 'f' then some (Char.ofNat 12, rest2)
          else if e = 'n' then some ('\n', rest2)
          else if e = 'r' then some (Char.ofNat 13, rest2)
          else if e = 't' then some ('\t', rest2)
          else if e = 'u' then
            match rest2 with
            | h1 :: h2 :: h3 :: h4 :: rest3 =>
              if isHexDigitChar h1 && isHexDigitChar h2 &&
                  isHexDigitChar h3 && isHexDigitChar h4 then
                some (Char.ofNat
                  (((hexDigitToNat h1 * 16 + hexDigitToNat h2) * 16 +
                    hexDigitToNat h3) * 16 + hexDigitToNat h4), rest3)
              else none
            | _ => none
          else none
        match decoded with
        | none => none
        | some (ch, rest') =>
          match parseStringBody fuel rest' with
          | none => none
          | some (s, r) => some (ch :: s, r)
    else if c.toNat < 32 then none
    else
      match parseStringBody fuel rest with
      | none => none
      | some (s, r) => some (c :: s, r)

mutual

/-- Recursive-descent JSON value parser. The fuel only bounds recursion
depth bookkeeping; `jsonParse` supplies more fuel than any input of its
length can consume. -/
def parseValue (fuel : Nat) (cs : List Char) : Option (Json × List Char) :=
  match fuel with
  | 0 => none
  | fuel + 1 =>
    match cs with
    | [] => none
    | c :: rest =>
      if c = '\x7b' then parseObjBody fuel (skipWs rest)
      else if c = '[' then parseArrBody fuel (skipWs rest)
      else if c = '"' then
        match parseStringBody fuel rest with
        | none => none
        | some (s, r) => some (.str (String.mk s), r)
      else
        match cs with
        | 't' :: 'r' :: 'u' :: 'e' :: r => some (.bool true, r)
        | 'f' :: 'a' :: 'l' :: 's' :: 'e' :: r => some (.bool false, r)
        | 'n' :: 'u' :: 'l' :: 'l' :: r => some (.null, r)
        | _ =>
          match parseNumber cs with
          | none => none
          | some (n, r) => some (.num n, r)

/-- After `{` and whitespace: either `}` or a member list. -/
def parseObjBody (fuel : Nat) (cs : List Char) : Option (Json × List Char) :=
  match fuel with
  | 0 => none
  | fuel + 1 =>
    match cs with
    | '\x7d' :: rest => some (.obj [], rest)
    | _ => parseMembers fuel cs []

def parseMembers (fuel : Nat) (cs : List Char) (acc : List (String × Json)) :
    Option (Json × List Char) :=
  match fuel with
  | 0 => none
  | fuel + 1 =>
    match cs with
    | '"' :: rest =>
      match parseStringBody fuel rest with
      | none => none
      | some (keyChars, r1) =>
        match skipWs r1 with
        | ':' :: r2 =>
          match parseValue fuel (skipWs r2) with
          | none => none
          | some (v, r3) =>
            let acc' := acc ++ [(String.mk keyChars, v)]
            match skipWs r3 with
            | ',' :: r4 =>
              match skipWs r4 with
              | '"' :: _ => parseMembers fuel (skipWs r4) acc'
              | _ => none
            | '\x7d' :: r4 => some (.obj acc', r4)
            | _ => none
        | _ => none
    | _ => none

/-- After `[` and whitespace: either `]` or an element list. -/
def parseArrBody (fuel : Nat) (cs : List Char) : Option (Json × List Char) :=
  match fuel with
  | 0 => none
  | fuel + 1 =>
    match cs with
    | ']' :: rest => some (.arr [], rest)
    | _ => parseElems fuel cs []

def parseElems (fuel : Nat) (cs : List Char) (acc : List Json) :
    Option (Json × List Char) :=
  match fuel with
  | 0 => none
  | fuel + 1 =>
    match parseValue fuel cs with
    | none => none
    | some (v, r1) =>
      let acc' := acc ++ [v]
      match skipWs r1 with
      | ',' :: r2 => parseElems fuel (skipWs r2) acc'
      | ']' :: r2 => some (.arr acc', r2)
      | _ => none

end

/-- The model of `JSON.parse`: `none` exactly when it throws. Top-level
whitespace is allowed on both sides; trailing non-whitespace input is a
syntax error. -/
def jsonParse (s : String) : Option Json :=
  match parseValue (2 * s.length + 8) (skipWs s.data) with
  | none => none
  | some (j, rest) => if skipWs rest = [] then some j else none

/-! ## Decoding the untyped `JSON.parse` result through the TS interfaces

TypeScript's `JSON.parse(line)` followed by the type ascription performs
no runtime validation: the parser reads fields off the untyped value.
The decoders below model those dynamic reads: a missing or `null` field
is `undefined`/`null` at the access site; reads that would throw a
`TypeError` in JavaScript (field access on `undefined`/`null`, `.length`
on a non-array `spans`) produce `.error .typeError`. String-typed fields
that the wire format always provides are defaulted to `""` when absent,
and boolean tests are JavaScript truthiness. -/

/-- Property lookup on a JSON value: `undefined` (`none`) unless the value
is an object with the key; for duplicate keys `JSON.parse` keeps the last
occurrence. -/
def lookupLast (fields : List (String × Json)) (key : String) : Option Json :=
  fields.foldl (fun acc kv => if kv.1 = key then some kv.2 else acc) none

def jsonGetField : Json → String → Option Json
  | .obj fields, key => lookupLast fields key
  | _, _ => none

/-- JavaScript truthiness of a (possibly absent) JSON value. -/
def jsTruthy : Option Json → Bool
  | none => false
  | some .null => false
  | some (.bool b) => b
  | some (.num n) => !(n == 0)
  | some (.str s) => !(s == "")
  | some (.arr _) => true
  | some (.obj _) => true

def decodeString (j : Option Json) : String :=
  match j with
  | some (.str s) => s
  | _ => ""

def decodeInt (j : Option Json) : Int :=
  match j with
  | some (.num n) => n
  | _ => 0

def decodeLabel (j : Option Json) : Option String :=
  match j with
  | some (.str s) => some s
  | _ => none

def decodeSpan (j : Json) : CompilerMessageSpan :=
  { column_end := decodeInt (jsonGetField j "column_end")
  , column_start := decodeInt (jsonGetField j "column_start")
  , expansion := jsTruthy (jsonGetField j "expansion")
  , file_name := decodeString (jsonGetField j "file_name")
  , is_primary := jsTruthy (jsonGetField j "is_primary")
  , label := decodeLabel (jsonGetField j "label")
  , line_end := decodeInt (jsonGetField j "line_end")
  , line_start := decodeInt (jsonGetField j "line_start") }

mutual

/-- Executable structural size of a JSON value, used to seed the decode
fuel below. -/
def jsonSize : Json → Nat
  | .arr xs => jsonListSize xs + 1
  | .obj fs => jsonFieldsSize fs + 1
  | _ => 1

def jsonListSize : List Json → Nat
  | [] => 0
  | x :: xs => jsonSize x + jsonListSize xs

def jsonFieldsSize : List (String × Json) → Nat
  | [] => 0
  | kv :: fs => jsonSize kv.2 + jsonFieldsSize fs

end

/-- Decode one node of the `children` tree; the fuel dominates the tree
depth (it is seeded with `jsonSize` of the node, which any child strictly
decreases). An absent or non-array `children` field is falsy at the
`if (child.children)` guard and renders nothing, like the empty list. -/
def decodeChildF : Nat → Json → CompilerMessageChild
  | 0, _ => .mk "" "" []
  | fuel + 1, j =>
    .mk (decodeString (jsonGetField j "level")) (decodeString (jsonGetField j "message"))
      (match jsonGetField j "children" with
       | some (.arr cs) => cs.map (decodeChildF fuel)
       | _ => [])

def decodeChildren (j : Option Json) : List CompilerMessageChild :=
  match j with
  | some (.arr cs) => cs.map (fun c => decodeChildF (jsonSize c) c)
  | _ => []

/-- `compilerMessage.code` is only truthiness-tested and then read as
`code.code`; `null` and absent are falsy. -/
def decodeCode (j : Option Json) : Option CompilerMessageCode :=
  match j with
  | some (.obj fields) => some ⟨decodeString (lookupLast fields "code")⟩
  | _ => none

/-- Decode the `message` payload. A non-array `spans` makes
`compilerMessage.spans`'s element accesses throw, modelled as
`.error .typeError`. -/
def decodeCompilerMessage (j : Json) : Except JsError CompilerMessage :=
  match jsonGetField j "spans" with
  | some (.arr spanJsons) =>
    .ok { children := decodeChildren (jsonGetField j "children")
        , code := decodeCode (jsonGetField j "code")
        , level := decodeString (jsonGetField j "level")
        , message := decodeString (jsonGetField j "message")
        , spans := spanJsons.map decodeSpan }
  | _ => .error .typeError

/-- `cargoMessage.reason === 'compiler-message'`: property access on
`null` throws; on every other value it yields the field or `undefined`,
and only the exact string `"compiler-message"` selects the
compiler-message path. -/
def decodeEvent (j : Json) : Except JsError ToolEvent :=
  match j with
  | .null => .error .typeError
  | _ =>
    match jsonGetField j "reason" with
    | some (.str s) =>
      if s = "compiler-message" then
        match jsonGetField j "message" with
        | some mj =>
          match decodeCompilerMessage mj with
          | .ok m => .ok (.compilerMessage m)
          | .error e => .error e
        | none => .error .typeError
      else .ok .other
    | _ => .ok .other

/-- The `reason` field viewed as a string, for stating claims:
`jsonReason j = some "compiler-message"` is exactly
`cargoMessage.reason === 'compiler-message'`. -/
def jsonReason (j : Json) : Option String :=
  match jsonGetField j "reason" with
  | some (.str s) => some s
  | _ => none

/-- `parseLine` after `JSON.parse` succeeded. -/
def parseLineJson (complexMessageIndex : Nat) (j : Json) :
    Except JsError (List FileDiagnostic) × Nat :=
  match decodeEvent j with
  | .error e => (.error e, complexMessageIndex)
  | .ok event => parseLineEvent complexMessageIndex event

/-- `DiagnosticParser.parseLine`: `JSON.parse` the line (throwing on
invalid JSON *before* any state is touched), then dispatch on the event.
The returned `Nat` is the `complexMessageIndex` field after the call. -/
def parseLine (complexMessageIndex : Nat) (line : String) :
    Except JsError (List FileDiagnostic) × Nat :=
  match jsonParse line with
  | none => (.error .jsonError, complexMessageIndex)
  | some j => parseLineJson complexMessageIndex j

/-! ## `CargoTask.kill` (`output_channel_cargo_task.ts`)

```
public kill(): Thenable<any> {
    return new Promise(resolve => {
        if (!this.interrupted && this.process) {
            kill(this.process.pid, 'SIGTERM', resolve);
            this.interrupted = true;
        }
    });
}
```

The two fields the method touches are embedded as `CargoTaskProcState`;
`process` is the `ChildProcess` handle (`null` once the `exit` handler has
run). The returned promise resolves exactly when `tree-kill` invokes the
callback after dispatching the signal; when the guard fails, `resolve` is
never called and the promise stays pending forever. -/

structure CargoTaskProcState where
  process : Option Nat
  interrupted : Bool
deriving DecidableEq, Repr

inductive KillPromise where
  | resolved  -- `resolve` is invoked once the termination signal is dispatched
  | pending   -- `resolve` is never invoked: the promise never settles
deriving DecidableEq, Repr

/-- `kill()`: the promise behaviour, the list of process (sub)trees
signalled with SIGTERM, and the task state after the call. -/
def CargoTask.kill (st : CargoTaskProcState) :
    KillPromise × List Nat × CargoTaskProcState :=
  match st.process with
  | some pid =>
    if !st.interrupted then
      (.resolved, [pid], { st with interrupted := true })
    else
      (.pending, [], st)
  | none => (.pending, [], st)

/-! ## `CargoTaskManager.runCargo`: completion / failure reporting

The text-sink and notification effects of one `runCargo` invocation,
following the code after the policy check:

* `onStart` runs synchronously *before* the spawn (`execute` invokes it
  first), clearing the channel and appending the `Started cargo …` line;
* on normal exit the completion and timing lines are appended;
* in the `catch` block: a falsy error (interruption) returns; an error
  whose `message` is not `'ENOENT'` returns; on `'ENOENT'` the
  information message is shown — and, the branch not returning, control
  falls through to the completion and timing appends with `exitCode`
  still `undefined`.

Lines streamed while the process runs go through `onStdoutLine` /
`onStderrLine`, modelled separately below. -/

inductive TaskEffect where
  | channelClear
  | channelAppend (text : String)
  | notifyInfo (text : String)
deriving DecidableEq, Repr

/-- How `await currentTask.execute(...)` settles. -/
inductive ExecuteOutcome where
  | exited (code : Int)        -- the promise resolved with the exit code
  | interrupted                -- `reject()` with no error after `kill()`
  | failed (message : String)  -- the `error` event; a spawn failure carries `'ENOENT'`
deriving DecidableEq, Repr

/-- JavaScript string interpolation of the possibly-undefined `exitCode`. -/
def jsShowExitCode : Option Int → String
  | none => "undefined"
  | some code => toString code

/-- JavaScript rendering of `(endTime - startTime) / 1000` for a
nonnegative whole-millisecond difference: an exact finite decimal with
trailing zeros (and a trailing dot) trimmed. -/
def msToSecondsString (ms : Int) : String :=
  let q := ms / 1000
  let r := (ms % 1000).toNat
  if r = 0 then toString q
  else
    let padded :=
      (if r < 10 then "00" else if r < 100 then "0" else "") ++ toString r
    let trimmed := String.mk (padded.data.reverse.dropWhile (fun c => c = '0')).reverse
    toString q ++ "." ++ trimmed

/-- The completion / timing appends shared by the normal path and the
fall-through of the `'ENOENT'` branch. -/
def completionAppends (exitCode : Option Int) (startTime endTime : Int) :
    List TaskEffect :=
  [ .channelAppend ("Completed with code " ++ jsShowExitCode exitCode ++ "\n")
  , .channelAppend ("It took approximately " ++ msToSecondsString (endTime - startTime)
      ++ " seconds\n") ]

/-- The text-sink / notification trace of one `runCargo` invocation, as a
function of how the spawned task settles. -/
def runCargoReportEffects (command : String) (args : List String)
    (outcome : ExecuteOutcome) (startTime endTime : Int) : List TaskEffect :=
  let startEffects : List TaskEffect :=
    [ .channelClear
    , .channelAppend ("Started cargo " ++ command ++ " " ++ String.intercalate " " args
        ++ "\n") ]
  match outcome with
  | .exited code => startEffects ++ completionAppends (some code) startTime endTime
  | .interrupted => startEffects
  | .failed msg =>
    if msg = "ENOENT" then
      startEffects
        ++ [.notifyInfo "The \"cargo\" command is not available. Make sure it is installed."]
        ++ completionAppends none startTime endTime
    else startEffects

/-! ## `CargoTaskManager.invokeCargoCheckWithArgs` and the availability probe

```
private async checkCargoCheckAvailability(): Promise<boolean> {
    const task = new CargoTask(this.configurationManager);
    const exitCode = await task.execute('check', ['--help'], '/');
    return exitCode === 0;
}

public async invokeCargoCheckWithArgs(args: string[]): Promise<void> {
    const isAvailable = await this.checkCargoCheckAvailability();
    let command;
    if (isAvailable) {
        command = 'check';
    } else {
        command = 'rustc';
        args.push('--', '-Zno-trans');
    }
    this.runCargo(command, args, true);
}
```

The manager stores no availability flag: every call to
`invokeCargoCheckWithArgs` awaits a fresh probe. `probesRun` records how
many `check --help` processes the call executed. -/

def checkCargoCheckAvailability (probeExitCode : Int) : Bool :=
  probeExitCode == 0

structure CheckInvocation where
  probesRun : Nat
  command : String
  args : List String
deriving DecidableEq, Repr

def invokeCargoCheckWithArgs (probeExitCode : Int) (args : List String) :
    CheckInvocation :=
  let isAvailable := checkCargoCheckAvailability probeExitCode
  if isAvailable then ⟨1, "check", args⟩
  else ⟨1, "rustc", args ++ ["--", "-Zno-trans"]⟩

/-- A sequence of check invocations; `probeExitCodes` supplies the exit
code each probe observes. -/
def runCheckInvocations (probeExitCodes : List Int) (args : List String) :
    List CheckInvocation :=
  probeExitCodes.map (fun e => invokeCargoCheckWithArgs e args)

def totalProbes (invocations : List CheckInvocation) : Nat :=
  (invocations.map (·.probesRun)).sum

/-! ## Stream routing (`runCargo`'s `onStdoutLine` / `onStderrLine`)

```
const onStdoutLine = (line: string) => {
    if (line.startsWith('{')) {
        const fileDiagnostics = this.diagnosticParser.parseLine(line);
        for (const fileDiagnostic of fileDiagnostics) {
            if (this.diagnosticPublishingEnabled) {
                this.diagnosticPublisher.publishDiagnostic(fileDiagnostic, cwd);
            }
        }
    } else {
        this.channel.append(`${line}\n`);
    }
};

const onStderrLine = (line: string) => {
    this.channel.append(`${line}\n`);
};
```
-/

inductive StreamEffect where
  | publishDiagnostic (d : FileDiagnostic)
  | channelAppendText (text : String)
deriving DecidableEq, Repr

/-- `line.startsWith('{')`: the first *character* is an opening brace; no
whitespace is skipped. -/
def startsWithLbrace (line : String) : Bool :=
  match line.data with
  | [] => false
  | c :: _ => c = '\x7b'

/-- The stdout callback: effects emitted for one line, plus the parser
counter after the call (a parse exception propagates out of the
callback). -/
def onStdoutLine (publishEnabled : Bool) (complexMessageIndex : Nat) (line : String) :
    Except JsError (List StreamEffect) × Nat :=
  if startsWithLbrace line then
    match parseLine complexMessageIndex line with
    | (.ok ds, c) =>
      (.ok (ds.filterMap fun d =>
        if publishEnabled then some (.publishDiagnostic d) else none), c)
    | (.error e, c) => (.error e, c)
  else
    (.ok [.channelAppendText (line ++ "\n")], complexMessageIndex)

/-- The stderr callback: every line goes to the channel. -/
def onStderrLine (line : String) : List StreamEffect :=
  [.channelAppendText (line ++ "\n")]

/-- The specification's routing predicate, for stating its claim: the
first non-whitespace character of the line. -/
def firstNonWhitespace (line : String) : Option Char :=
  (line.data.dropWhile (fun c => c = ' ' || c = '\t')).head?

/-! ## The single-flight / preemption transition system (`runCargo`)

```
if (force && this.currentTask) {
    await this.currentTask.kill();
    this.runCargo(command, args, force);
    return;
} else if (this.currentTask) {
    return;
}
...
this.currentTask = new CargoTask(this.configurationManager);
...
exitCode = await this.currentTask.execute(command, args, cwd, ...);
...
this.currentTask = null;
```

Small-step semantics of the coordinator fragment consisting of `runCargo`
invocations, the `CargoTask`s they spawn, and `stopTask`. JavaScript is
single-threaded and cooperative, so a step is everything that runs
between two suspension points:

* `invoke` — a new `runCargo` call; after `await cwd()` it sits at the
  policy check (`atCheck`);
* `atCheck` with `force = false` and a current task — the `return`
  (request dropped);
* `atCheck` with `force = true` and a current task — the `kill()` call:
  if the task is live and not yet interrupted, SIGTERM is dispatched, the
  task is marked interrupted and the invocation awaits the kill promise
  (`awaitingKill`); otherwise the promise never resolves and the
  invocation is suspended forever (`killStuck`);
* `killResolve` — the `tree-kill` callback fires and the re-issued
  `runCargo(command, args, force)` reaches its own policy check;
* `spawn` — `atCheck` with no current task: the check, the assignment of
  `currentTask` and the synchronous part of `execute` (which spawns the
  process) run without an intervening suspension point;
* `procExit` — the external process terminates: the `exit` handler runs,
  the task is `exited`;
* `settle` — the `await execute(...)` continuation resumes (resolve, or
  reject-on-interrupt handled in the `catch`); both paths end with
  `this.currentTask = null`;
* `externalKill` — `stopTask()` kills the current task.

`invokeCargoInit` / `invokeCargoNew` (project creation, which bypass the
policy check) and spawn failure are outside the modelled fragment. -/

inductive ProcPhase where
  | running
  | exited
deriving DecidableEq, Repr

structure TaskObj where
  phase : ProcPhase
  interrupted : Bool
deriving DecidableEq, Repr

inductive InvPhase where
  | atCheck (force : Bool)
  | awaitingKill (tid : Nat)
  | killStuck
  | awaitingExit (tid : Nat)
  | invDone
deriving DecidableEq, Repr

structure CoordState where
  nextId : Nat
  currentTask : Option Nat
  tasks : List TaskObj
  invs : List InvPhase
deriving DecidableEq, Repr

def initState : CoordState := ⟨0, none, [], []⟩

/-- The task with id `t`; ids beyond `tasks.length` read as an inert
exited, interrupted task (they never occur in reachable states). -/
def taskAt (s : CoordState) (t : Nat) : TaskObj :=
  s.tasks.getD t ⟨.exited, true⟩

inductive CoordLabel where
  | invoke (force : Bool)
  | dropReq (i : Nat)
  | killCall (i t : Nat)
  | killResolve (i : Nat)
  | spawn (i t : Nat)
  | procExit (t : Nat)
  | settle (i t : Nat)
  | externalKill (t : Nat)
deriving DecidableEq, Repr

/-- Which pending `runCargo` invocation a step belongs to. -/
def CoordLabel.actor : CoordLabel → Option Nat
  | .dropReq i => some i
  | .killCall i _ => some i
  | .killResolve i => some i
  | .spawn i _ => some i
  | .settle i _ => some i
  | _ => none

inductive Step : CoordState → CoordLabel → CoordState → Prop where
  | invoke (s : CoordState) (force : Bool) :
      Step s (.invoke force) { s with invs := s.invs ++ [.atCheck force] }
  | dropReq (s : CoordState) (i t : Nat)
      (hi : s.invs[i]? = some (.atCheck false)) (hc : s.currentTask = some t) :
      Step s (.dropReq i) { s with invs := s.invs.set i .invDone }
  | killCallLive (s : CoordState) (i t : Nat)
      (hi : s.invs[i]? = some (.atCheck true)) (hc : s.currentTask = some t)
      (hn : (taskAt s t).interrupted = false) (hr : (taskAt s t).phase = .running) :
      Step s (.killCall i t)
        { s with tasks := s.tasks.set t { taskAt s t with interrupted := true },
                 invs := s.invs.set i (.awaitingKill t) }
  | killCallDead (s : CoordState) (i t : Nat)
      (hi : s.invs[i]? = some (.atCheck true)) (hc : s.currentTask = some t)
      (hd : (taskAt s t).interrupted = true ∨ (taskAt s t).phase = .exited) :
      Step s (.killCall i t) { s with invs := s.invs.set i .killStuck }
  | killResolve (s : CoordState) (i t : Nat)
      (hi : s.invs[i]? = some (.awaitingKill t)) :
      Step s (.killResolve i) { s with invs := s.invs.set i (.atCheck true) }
  | spawn (s : CoordState) (i : Nat) (force : Bool)
      (hi : s.invs[i]? = some (.atCheck force)) (hc : s.currentTask = none) :
      Step s (.spawn i s.nextId)
        { s with nextId := s.nextId + 1,
                 currentTask := some s.nextId,
                 tasks := s.tasks ++ [⟨.running, false⟩],
                 invs := s.invs.set i (.awaitingExit s.nextId) }
  | procExit (s : CoordState) (t : Nat) (hr : (taskAt s t).phase = .running) :
      Step s (.procExit t) { s with tasks := s.tasks.set t { taskAt s t with phase := .exited } }
  | settle (s : CoordState) (i t : Nat)
      (hi : s.invs[i]? = some (.awaitingExit t)) (hx : (taskAt s t).phase = .exited) :
      Step s (.settle i t) { s with currentTask := none, invs := s.invs.set i .invDone }
  | externalKill (s : CoordState) (t : Nat) (hc : s.currentTask = some t)
      (hn : (taskAt s t).interrupted = false) (hr : (taskAt s t).phase = .running) :
      Step s (.externalKill t) { s with tasks := s.tasks.set t { taskAt s t with interrupted := true } }

inductive Reachable : CoordState → Prop where
  | init : Reachable initState
  | step {s l s'} : Reachable s → Step s l s' → Reachable s'

/-- The coordinator invariant: task ids are dense, a process that is
still running is always the current task (so at most one process runs at
any time), an invocation awaiting `execute` is awaiting the current task,
and at most one invocation is awaiting `execute`. -/
def Inv (s : CoordState) : Prop :=
  s.tasks.length = s.nextId
  ∧ (∀ t, t < s.tasks.length → (taskAt s t).phase = .running → s.currentTask = some t)
  ∧ (∀ (i t : Nat), s.invs[i]? = some (InvPhase.awaitingExit t) → s.currentTask = some t)
  ∧ (∀ (i j t u : Nat), s.invs[i]? = some (InvPhase.awaitingExit t) →
      s.invs[j]? = some (InvPhase.awaitingExit u) → i = j)

/-! ### List access helpers -/

theorem getD_set_self {α : Type} {l : List α} {i : Nat} (v d : α) (h : i < l.length) :
    (l.set i v).getD i d = v := by
  rw [List.getD_eq_getElem?_getD, List.getElem?_set_eq_of_lt _ h]
  rfl

theorem getD_set_ne {α : Type} {l : List α} {i j : Nat} (hne : i ≠ j) (v d : α) :
    (l.set i v).getD j d = l.getD j d := by
  rw [List.getD_eq_getElem?_getD, List.getD_eq_getElem?_getD, List.getElem?_set_ne hne]

theorem getD_append_lt {α : Type} {l : List α} {i : Nat} (x d : α) (h : i < l.length) :
    (l ++ [x]).getD i d = l.getD i d := by
  rw [List.getD_eq_getElem?_getD, List.getD_eq_getElem?_getD, List.getElem?_append]
  simp [h]

theorem getElem?_append_singleton_cases {α : Type} {l : List α} {x v : α} {i : Nat}
    (h : (l ++ [x])[i]? = some v) : l[i]? = some v ∨ (i = l.length ∧ v = x) := by
  rcases Nat.lt_or_ge i l.length with hlt | hge
  · left
    rw [List.getElem?_append] at h
    simpa [hlt] using h
  · right
    rw [List.getElem?_append_right hge] at h
    have h0 : i - l.length < 1 := by
      by_contra hh
      push_neg at hh
      rw [List.getElem?_eq_none (by simpa using hh)] at h
      cases h
    have hz : i - l.length = 0 := by omega
    rw [hz] at h
    simp only [List.getElem?_cons_zero] at h
    exact ⟨by omega, (Option.some_inj.mp h).symm⟩

theorem getElem?_set_cases {α : Type} {l : List α} {x v : α} {i j : Nat}
    (h : (l.set i x)[j]? = some v) : (i ≠ j ∧ l[j]? = some v) ∨ (i = j ∧ v = x) := by
  by_cases hij : i = j
  · subst hij
    right
    refine ⟨rfl, ?_⟩
    rw [List.getElem?_set] at h
    rw [if_pos rfl] at h
    by_cases hlen : i < l.length
    · rw [if_pos hlen] at h
      exact (Option.some_inj.mp h).symm
    · rw [if_neg hlen] at h
      cases h
  · left
    exact ⟨hij, by rwa [List.getElem?_set_ne hij] at h⟩

/-! ### The coordinator invariant is inductive -/

theorem taskAt_lt_of_running {s : CoordState} {t : Nat}
    (h : (taskAt s t).phase = .running) : t < s.tasks.length := by
  by_contra hlt
  push_neg at hlt
  have hd : taskAt s t = ⟨.exited, true⟩ := by
    unfold taskAt
    rw [List.getD_eq_getElem?_getD, List.getElem?_eq_none hlt]
    rfl
  rw [hd] at h
  cases h

/-- Setting task `t` to a value with the same phase preserves every
task's phase. -/
theorem getD_set_phase {s : CoordState} {t : Nat} {v : TaskObj}
    (hlt : t < s.tasks.length) (hv : v.phase = (taskAt s t).phase) (u : Nat) :
    (List.getD (s.tasks.set t v) u ⟨ProcPhase.exited, true⟩).phase = (taskAt s u).phase := by
  by_cases htu : t = u
  · subst htu
    rw [getD_set_self _ _ hlt]
    exact hv
  · rw [getD_set_ne htu]
    rfl

theorem inv_preserved {s : CoordState} {l : CoordLabel} {s' : CoordState}
    (hstep : Step s l s') (hinv : Inv s) : Inv s' := by
  obtain ⟨h1, h2, h3, h4⟩ := hinv
  cases hstep with
  | invoke force =>
    refine ⟨h1, h2, ?_, ?_⟩
    · intro i t hi
      rcases getElem?_append_singleton_cases hi with hcase | ⟨_, hcase⟩
      · exact h3 i t hcase
      · cases hcase
    · intro i j t u hi hj
      rcases getElem?_append_singleton_cases hi with hcase | ⟨_, hcase⟩
      · rcases getElem?_append_singleton_cases hj with hcase' | ⟨_, hcase'⟩
        · exact h4 i j t u hcase hcase'
        · cases hcase'
      · cases hcase
  | dropReq i t hi hc =>
    refine ⟨h1, h2, ?_, ?_⟩
    · intro i' t' hi'
      rcases getElem?_set_cases hi' with ⟨_, hcase⟩ | ⟨_, hcase⟩
      · exact h3 i' t' hcase
      · cases hcase
    · intro i' j' t' u' hi' hj'
      rcases getElem?_set_cases hi' with ⟨_, hcase⟩ | ⟨_, hcase⟩
      · rcases getElem?_set_cases hj' with ⟨_, hcase'⟩ | ⟨_, hcase'⟩
        · exact h4 i' j' t' u' hcase hcase'
        · cases hcase'
      · cases hcase
  | killCallLive i t hi hc hn hr =>
    have hlt := taskAt_lt_of_running hr
    refine ⟨by simpa using h1, ?_, ?_, ?_⟩
    · intro u hu hrun
      have hrun2 : (List.getD (s.tasks.set t { taskAt s t with interrupted := true }) u
          (⟨ProcPhase.exited, true⟩ : TaskObj)).phase = ProcPhase.running := hrun
      rw [getD_set_phase (v := { taskAt s t with interrupted := true }) hlt rfl u] at hrun2
      exact h2 u (by simpa using hu) hrun2
    · intro i' t' hi'
      rcases getElem?_set_cases hi' with ⟨_, hcase⟩ | ⟨_, hcase⟩
      · exact h3 i' t' hcase
      · cases hcase
    · intro i' j' t' u' hi' hj'
      rcases getElem?_set_cases hi' with ⟨_, hcase⟩ | ⟨_, hcase⟩
      · rcases getElem?_set_cases hj' with ⟨_, hcase'⟩ | ⟨_, hcase'⟩
        · exact h4 i' j' t' u' hcase hcase'
        · cases hcase'
      · cases hcase
  | killCallDead i t hi hc hd =>
    refine ⟨h1, h2, ?_, ?_⟩
    · intro i' t' hi'
      rcases getElem?_set_cases hi' with ⟨_, hcase⟩ | ⟨_, hcase⟩
      · exact h3 i' t' hcase
      · cases hcase
    · intro i' j' t' u' hi' hj'
      rcases getElem?_set_cases hi' with ⟨_, hcase⟩ | ⟨_, hcase⟩
      · rcases getElem?_set_cases hj' with ⟨_, hcase'⟩ | ⟨_, hcase'⟩
        · exact h4 i' j' t' u' hcase hcase'
        · cases hcase'
      · cases hcase
  | killResolve i t hi =>
    refine ⟨h1, h2, ?_, ?_⟩
    · intro i' t' hi'
      rcases getElem?_set_cases hi' with ⟨_, hcase⟩ | ⟨_, hcase⟩
      · exact h3 i' t' hcase
      · cases hcase
    · intro i' j' t' u' hi' hj'
      rcases getElem?_set_cases hi' with ⟨_, hcase⟩ | ⟨_, hcase⟩
      · rcases getElem?_set_cases hj' with ⟨_, hcase'⟩ | ⟨_, hcase'⟩
        · exact h4 i' j' t' u' hcase hcase'
        · cases hcase'
      · cases hcase
  | spawn i force hi hc =>
    refine ⟨by simp [h1], ?_, ?_, ?_⟩
    · intro u hu hrun
      have hu' : u < s.tasks.length + 1 := by simpa using hu
      rcases Nat.lt_or_ge u s.tasks.length with hlt | hge
      · exfalso
        have hrun2 : (List.getD (s.tasks ++ [(⟨ProcPhase.running, false⟩ : TaskObj)]) u
            (⟨ProcPhase.exited, true⟩ : TaskObj)).phase = ProcPhase.running := hrun
        rw [getD_append_lt _ _ hlt] at hrun2
        have := h2 u hlt hrun2
        rw [hc] at this
        cases this
      · have hue : u = s.tasks.length := by omega
        subst hue
        show some s.nextId = some s.tasks.length
        rw [h1]
    · intro i' t' hi'
      rcases getElem?_set_cases hi' with ⟨_, hcase⟩ | ⟨_, hcase⟩
      · exfalso
        have := h3 i' t' hcase
        rw [hc] at this
        cases this
      · cases hcase
        rfl
    · intro i' j' t' u' hi' hj'
      rcases getElem?_set_cases hi' with ⟨_, hcase⟩ | ⟨hii', _⟩
      · exfalso
        have := h3 i' t' hcase
        rw [hc] at this
        cases this
      · rcases getElem?_set_cases hj' with ⟨_, hcase'⟩ | ⟨hjj', _⟩
        · exfalso
          have := h3 j' u' hcase'
          rw [hc] at this
          cases this
        · omega
  | procExit t hr =>
    have hlt := taskAt_lt_of_running hr
    refine ⟨by simpa using h1, ?_, h3, h4⟩
    intro u hu hrun
    by_cases htu : t = u
    · exfalso
      subst htu
      have hrun2 : (List.getD (s.tasks.set t { taskAt s t with phase := .exited }) t
          (⟨ProcPhase.exited, true⟩ : TaskObj)).phase = ProcPhase.running := hrun
      rw [getD_set_self _ _ hlt] at hrun2
      cases hrun2
    · have hrun2 : (List.getD (s.tasks.set t { taskAt s t with phase := .exited }) u
          ⟨ProcPhase.exited, true⟩).phase = ProcPhase.running := hrun
      rw [getD_set_ne htu] at hrun2
      exact h2 u (by simpa using hu) hrun2
  | settle i t hi hx =>
    refine ⟨h1, ?_, ?_, ?_⟩
    · intro u hu hrun
      exfalso
      have h2u := h2 u (by simpa using hu) hrun
      have h3i := h3 i t hi
      rw [h3i] at h2u
      have hut : t = u := by injection h2u
      subst hut
      have hrun2 : (taskAt s t).phase = ProcPhase.running := hrun
      rw [hx] at hrun2
      cases hrun2
    · intro i' t' hi'
      rcases getElem?_set_cases hi' with ⟨hne, hcase⟩ | ⟨_, hcase⟩
      · exact absurd (h4 i' i t' t hcase hi) (Ne.symm hne)
      · cases hcase
    · intro i' j' t' u' hi' hj'
      rcases getElem?_set_cases hi' with ⟨hne, hcase⟩ | ⟨_, hcase⟩
      · exact absurd (h4 i' i t' t hcase hi) (Ne.symm hne)
      · cases hcase
  | externalKill t hc hn hr =>
    have hlt := taskAt_lt_of_running hr
    refine ⟨by simpa using h1, ?_, h3, h4⟩
    intro u hu hrun
    have hrun2 : (List.getD (s.tasks.set t { taskAt s t with interrupted := true }) u
        (⟨ProcPhase.exited, true⟩ : TaskObj)).phase = ProcPhase.running := hrun
    rw [getD_set_phase (v := { taskAt s t with interrupted := true }) hlt rfl u] at hrun2
    exact h2 u (by simpa using hu) hrun2

theorem reachable_inv {s : CoordState} (h : Reachable s) : Inv s := by
  induction h with
  | init =>
    refine ⟨rfl, ?_, ?_, ?_⟩
    · intro t ht
      simp [initState] at ht
    · intro i t hi
      simp [initState] at hi
    · intro i j t u hi hj
      simp [initState] at hi
  | step _ hstep ih => exact inv_preserved hstep ih

/-! ## Claim theorems: the Diagnostic Parser -/

/-- Every diagnostic the complex path emits for a span carries the
`"(N) "` correlation number of the message. -/
theorem complexSpanDiagnostic_message {idx : Nat} {m : CompilerMessage}
    {span : CompilerMessageSpan} {d : FileDiagnostic}
    (h : complexSpanDiagnostic idx m span = some d) :
    ∃ rest, d.diagnostic.message = "(" ++ toString idx ++ ") " ++ rest := by
  simp only [complexSpanDiagnostic] at h
  split at h
  · split at h
    · cases Option.some_inj.mp h
      exact ⟨codeSegment m ++ (m.message ++ ("\n" ++ (span.label.getD "" ++
        childrenToString m.children 1))), by simp only [String.append_assoc]⟩
    · cases Option.some_inj.mp h
      exact ⟨codeSegment m ++ (m.message ++ childrenToString m.children 1),
        by simp only [String.append_assoc]⟩
  · split at h
    · cases Option.some_inj.mp h
      exact ⟨codeSegment m ++ span.label.getD "", by simp only [String.append_assoc]⟩
    · cases h

theorem parseComplex_message_shared {idx : Nat} {m : CompilerMessage} :
    ∀ d ∈ parseComplexCompilerMessage idx m,
      ∃ rest, d.diagnostic.message = "(" ++ toString idx ++ ") " ++ rest := by
  intro d hd
  rw [parseComplexCompilerMessage, List.mem_filterMap] at hd
  obtain ⟨span, _, hspan⟩ := hd
  exact complexSpanDiagnostic_message hspan

theorem spans_nonempty_of_complex {m : CompilerMessage}
    (h : isComplexCompilerMessage m = .ok true) : ¬m.spans.length = 0 := by
  intro h0
  rw [isComplexCompilerMessage, if_pos h0] at h
  cases h

theorem parseCompilerMessage_of_complex {c : Nat} {m : CompilerMessage}
    (h : isComplexCompilerMessage m = .ok true) :
    parseCompilerMessage c m = (.ok (parseComplexCompilerMessage (c + 1) m), c + 1) := by
  rw [parseCompilerMessage, if_neg (spans_nonempty_of_complex h), h]

/-- C8: for every compiler-message with exactly one span carrying no
expansion, `parseLine` produces exactly one diagnostic, whose range
subtracts 1 from each of `line_start`, `column_start`, `line_end`,
`column_end`, and leaves the complex-message counter unchanged. -/
theorem c8_simple_range (c : Nat) (m : CompilerMessage) (span : CompilerMessageSpan)
    (hspans : m.spans = [span]) (hexp : span.expansion = false) :
    ∃ d : FileDiagnostic,
      parseLineEvent c (.compilerMessage m) = (.ok [d], c) ∧
      d.diagnostic.range =
        ⟨span.line_start - 1, span.column_start - 1, span.line_end - 1, span.column_end - 1⟩ := by
  have hsimple : parseLineEvent c (.compilerMessage m) = (parseSimpleCompilerMessage m, c) := by
    show parseCompilerMessage c m = _
    rw [parseCompilerMessage, isComplexCompilerMessage, hspans]
    simp [hexp]
  refine ⟨⟨span.file_name, ⟨rangeOfSpan span,
      (if strTruthy span.label then
        codeSegment m ++ m.message ++ "\n" ++ span.label.getD ""
       else codeSegment m ++ m.message) ++ childrenToString m.children 1,
      toSeverity m.level⟩⟩, ?_, rfl⟩
  rw [hsimple]
  simp only [parseSimpleCompilerMessage, hspans]

/-- C9: `parseLine` returns the empty list for every event whose `reason`
is not `"compiler-message"` (non-null decoded values), and for every
compiler-message whose span list is empty; the counter is untouched. -/
theorem c9_non_message_and_empty_spans (c : Nat) (line : String) (j : Json)
    (m : CompilerMessage) :
    (jsonParse line = some j → j ≠ Json.null → jsonReason j ≠ some "compiler-message" →
      parseLine c line = (.ok [], c))
    ∧ (m.spans = [] → parseLineEvent c (.compilerMessage m) = (.ok [], c)) := by
  constructor
  · intro hparse hnull hreason
    have hev : decodeEvent j = .ok .other := by
      cases j with
      | null => exact absurd rfl hnull
      | bool b => rfl
      | num n => rfl
      | str s => rfl
      | arr xs => rfl
      | obj fields =>
        cases hf : jsonGetField (Json.obj fields) "reason" with
        | none => simp [decodeEvent, hf]
        | some v =>
          cases v with
          | str s =>
            have hs : ¬s = "compiler-message" := by
              intro hs
              apply hreason
              rw [jsonReason, hf, hs]
            simp [decodeEvent, hf, hs]
          | null => simp [decodeEvent, hf]
          | bool b => simp [decodeEvent, hf]
          | num n => simp [decodeEvent, hf]
          | arr xs => simp [decodeEvent, hf]
          | obj fs => simp [decodeEvent, hf]
    simp [parseLine, hparse, parseLineJson, hev, parseLineEvent]
  · intro hspans
    show parseCompilerMessage c m = _
    rw [parseCompilerMessage, if_pos (by rw [hspans]; rfl)]

/-- C10: on every input string that is not valid JSON, `parseLine` raises
the `JSON.parse` exception (it neither skips the line nor returns an
empty list) and the complex-message counter is unchanged. -/
theorem c10_invalid_json (c : Nat) (line : String) (h : jsonParse line = none) :
    parseLine c line = (.error .jsonError, c) := by
  rw [parseLine, h]

/-- C7: the complex-message counter starts at 0 and never decreases; all
diagnostics derived from one complex message share the same number
`c + 1`; two complex messages parsed in succession take the counter
through 1 and 2 and prefix their diagnostics with `"(1) "` and `"(2) "`. -/
theorem c7_counter_monotone (c : Nat) (e : ToolEvent) (m m1 m2 : CompilerMessage) :
    DiagnosticParser.initialComplexMessageIndex = 0
    ∧ c ≤ (parseLineEvent c e).2
    ∧ (isComplexCompilerMessage m = .ok true →
        parseLineEvent c (.compilerMessage m) =
          (.ok (parseComplexCompilerMessage (c + 1) m), c + 1)
        ∧ ∀ d ∈ parseComplexCompilerMessage (c + 1) m,
            ∃ rest, d.diagnostic.message = "(" ++ toString (c + 1) ++ ") " ++ rest)
    ∧ (isComplexCompilerMessage m1 = .ok true → isComplexCompilerMessage m2 = .ok true →
        parseLineEvent 0 (.compilerMessage m1) =
          (.ok (parseComplexCompilerMessage 1 m1), 1)
        ∧ parseLineEvent 1 (.compilerMessage m2) =
          (.ok (parseComplexCompilerMessage 2 m2), 2)
        ∧ (∀ d ∈ parseComplexCompilerMessage 1 m1,
            ∃ rest, d.diagnostic.message = "(1) " ++ rest)
        ∧ (∀ d ∈ parseComplexCompilerMessage 2 m2,
            ∃ rest, d.diagnostic.message = "(2) " ++ rest)) := by
  refine ⟨rfl, ?_, ?_, ?_⟩
  · cases e with
    | other => exact Nat.le_refl c
    | compilerMessage m' =>
      show c ≤ (parseCompilerMessage c m').2
      rw [parseCompilerMessage]
      split
      · exact Nat.le_refl c
      · split
        · exact Nat.le_refl c
        · exact Nat.le_succ c
        · exact Nat.le_refl c
  · intro hcomplex
    exact ⟨parseCompilerMessage_of_complex hcomplex, parseComplex_message_shared⟩
  · intro h1 h2
    refine ⟨parseCompilerMessage_of_complex h1, parseCompilerMessage_of_complex h2,
      fun d hd => ?_, fun d hd => ?_⟩
    · exact parseComplex_message_shared d hd
    · exact parseComplex_message_shared d hd

/-- The complex example refuting C1 as stated: a complex message (two
spans) that carries a `code`. -/
def c1ExampleMessage : CompilerMessage :=
  { children := []
  , code := some ⟨"E0308"⟩
  , level := "error"
  , message := "mismatched types"
  , spans :=
    [ { column_end := 10, column_start := 5, expansion := false, file_name := "src/main.rs"
      , is_primary := true, label := some "expected i32", line_end := 2, line_start := 2 }
    , { column_end := 8, column_start := 3, expansion := false, file_name := "src/main.rs"
      , is_primary := false, label := some "found u32", line_end := 7, line_start := 7 } ] }

/-- C1 counterexample: in a complex message carrying a `code`, the
diagnostic emitted for a labelled non-primary span has message
`"(1) E0308: found u32"`, not `"(1) " + label`: the code prefix is
prepended before the `is_primary` test, so the claim's message shape is
wrong whenever `code` is present. -/
theorem c1_counterexample :
    (parseCompilerMessage 0 c1ExampleMessage).1 =
      .ok
        [ ⟨"src/main.rs", ⟨⟨1, 4, 1, 9⟩,
            "(1) E0308: mismatched types\nexpected i32", .Error⟩⟩
        , ⟨"src/main.rs", ⟨⟨6, 2, 6, 7⟩, "(1) E0308: found u32", .Error⟩⟩ ]
    ∧ ("(1) E0308: found u32" : String) ≠ "(1) " ++ "found u32" := by
  exact ⟨rfl, by decide⟩

/-- C1 (amended): in the complex path every non-primary span with a
(truthy) label yields exactly one diagnostic, whose message is
`"(N) "` + the optional `"code: "` prefix + label; a non-primary span
without a truthy label yields none. -/
theorem c1_nonprimary_span_rules (idx : Nat) (m : CompilerMessage)
    (span : CompilerMessageSpan) :
    parseComplexCompilerMessage idx m = m.spans.filterMap (complexSpanDiagnostic idx m)
    ∧ (span.is_primary = false → strTruthy span.label = true →
        complexSpanDiagnostic idx m span =
          some ⟨span.file_name,
            ⟨rangeOfSpan span,
             "(" ++ toString idx ++ ") " ++ codeSegment m ++ span.label.getD "",
             toSeverity m.level⟩⟩)
    ∧ (span.is_primary = false → strTruthy span.label = false →
        complexSpanDiagnostic idx m span = none) := by
  refine ⟨rfl, ?_, ?_⟩
  · intro hp hl
    simp only [complexSpanDiagnostic, hp, hl]
    simp [String.append_assoc]
  · intro hp hl
    simp only [complexSpanDiagnostic, hp, hl]
    simp

/-! ## Claim theorems: Process Runner and Task Coordinator -/

/-- C3 (the code falls through): when the spawn fails with `'ENOENT'`,
the invocation *does* show the "tool not available" notification — but
the `catch` branch does not return, so the completion and timing lines
are appended to the text sink afterwards, with the exit code rendered as
`undefined`; the `Started cargo …` line was already appended by `onStart`
before the spawn. Evaluated at a concrete failing invocation. -/
theorem c3_enoent_report :
    runCargoReportEffects "build" ["--message-format", "json"] (.failed "ENOENT") 0 1500 =
      [ .channelClear
      , .channelAppend "Started cargo build --message-format json\n"
      , .notifyInfo "The \"cargo\" command is not available. Make sure it is installed."
      , .channelAppend "Completed with code undefined\n"
      , .channelAppend "It took approximately 1.5 seconds\n" ]
    ∧ runCargoReportEffects "build" ["--message-format", "json"] (.failed "EACCES") 0 1500 =
      [ .channelClear
      , .channelAppend "Started cargo build --message-format json\n" ]
    ∧ runCargoReportEffects "build" ["--message-format", "json"] .interrupted 0 1500 =
      [ .channelClear
      , .channelAppend "Started cargo build --message-format json\n" ] := by
  exact ⟨rfl, rfl, rfl⟩

/-- C4 counterexample: after a first `kill()` on a live task, a second
`kill()` returns a promise that never resolves (the guard fails, so
`resolve` is never invoked), refuting "every call to kill() returns once
the termination signal has been dispatched, including calls made after a
prior kill()". -/
theorem c4_counterexample :
    (CargoTask.kill (CargoTask.kill ⟨some 7, false⟩).2.2).1 = KillPromise.pending
    ∧ KillPromise.pending ≠ KillPromise.resolved := by
  exact ⟨rfl, by decide⟩

/-- C4 (amended): `kill()` is idempotent — a second call dispatches no
signal and changes nothing; the *first* call on a live, uninterrupted
task dispatches SIGTERM to the process tree and resolves once dispatched;
every call made after a prior kill or after the process handle is cleared
dispatches nothing and its promise never resolves. -/
theorem c4_kill_behavior (st : CargoTaskProcState) (pid : Nat) :
    (st.interrupted = false → st.process = some pid →
      CargoTask.kill st = (.resolved, [pid], { st with interrupted := true }))
    ∧ (st.interrupted = true ∨ st.process = none →
      CargoTask.kill st = (.pending, [], st))
    ∧ CargoTask.kill (CargoTask.kill st).2.2 = (.pending, [], (CargoTask.kill st).2.2) := by
  obtain ⟨proc, intr⟩ := st
  refine ⟨?_, ?_, ?_⟩
  · intro hintr hproc
    cases hproc
    cases hintr
    rfl
  · intro h
    rcases h with h | h
    · cases h
      cases proc <;> rfl
    · cases h
      rfl
  · cases proc <;> cases intr <;> rfl

/-- C5 counterexample: two consecutive check invocations whose probes
report the subcommand unsupported run two probes, not one — the manager
caches nothing, so "run exactly once … without probing again" fails. -/
theorem c5_counterexample :
    totalProbes (runCheckInvocations [1, 1] []) = 2
    ∧ (runCheckInvocations [1, 1] []).map (fun inv => inv.command) = ["rustc", "rustc"]
    ∧ (2 : Nat) ≠ 1 := by
  exact ⟨rfl, rfl, by decide⟩

/-- C5 (amended): the `check --help` availability probe (succeeding
exactly on exit code 0) runs once *per check invocation*; an invocation
whose probe fails substitutes `rustc` and appends `--`, `-Zno-trans`; one
whose probe succeeds runs `check` with the arguments unchanged. -/
theorem c5_probe_each_invocation (e : Int) (args : List String) (es : List Int) :
    (invokeCargoCheckWithArgs e args).probesRun = 1
    ∧ (e = 0 → invokeCargoCheckWithArgs e args = ⟨1, "check", args⟩)
    ∧ (e ≠ 0 → invokeCargoCheckWithArgs e args = ⟨1, "rustc", args ++ ["--", "-Zno-trans"]⟩)
    ∧ totalProbes (runCheckInvocations es args) = es.length := by
  have hone : ∀ x : Int, (invokeCargoCheckWithArgs x args).probesRun = 1 := by
    intro x
    rw [invokeCargoCheckWithArgs]
    split <;> rfl
  refine ⟨hone e, ?_, ?_, ?_⟩
  · intro h
    simp [invokeCargoCheckWithArgs, checkCargoCheckAvailability, h]
  · intro h
    simp [invokeCargoCheckWithArgs, checkCargoCheckAvailability, h]
  · induction es with
    | nil => rfl
    | cons e' es' ih =>
      simp only [runCheckInvocations, totalProbes, List.map_cons, List.sum_cons] at ih ⊢
      rw [hone e', ih]
      simp [Nat.add_comm]

/-- C6 counterexample: the stdout line `" {}"` has `'{'` as its first
non-whitespace character, yet it is appended verbatim to the text sink
and never reaches the parser — the code tests `line.startsWith('{')`
without skipping whitespace, refuting "exactly when its first
non-whitespace character is `{`". -/
theorem c6_counterexample :
    firstNonWhitespace " \x7b\x7d" = some '\x7b'
    ∧ onStdoutLine true 0 " \x7b\x7d" = (.ok [.channelAppendText " \x7b\x7d\n"], 0) := by
  exact ⟨rfl, rfl⟩

/-- C6 (amended): a stdout line is passed to the Diagnostic Parser
exactly when its first character is `{` (no whitespace is skipped);
every other stdout line, and every stderr line, goes to the text sink
with a newline appended; parsed diagnostics are forwarded to the
publisher when publishing is enabled. -/
theorem c6_stream_routing (publishEnabled : Bool) (c : Nat) (line : String) :
    (startsWithLbrace line = false →
      onStdoutLine publishEnabled c line = (.ok [.channelAppendText (line ++ "\n")], c))
    ∧ (startsWithLbrace line = true →
        (onStdoutLine publishEnabled c line).2 = (parseLine c line).2
        ∧ (∀ e, (parseLine c line).1 = .error e →
            (onStdoutLine publishEnabled c line).1 = .error e)
        ∧ (∀ ds, (parseLine c line).1 = .ok ds →
            (onStdoutLine true c line).1 = .ok (ds.map StreamEffect.publishDiagnostic)))
    ∧ onStderrLine line = [.channelAppendText (line ++ "\n")] := by
  refine ⟨?_, ?_, rfl⟩
  · intro h
    rw [onStdoutLine, if_neg (by rw [h]; exact Bool.false_ne_true)]
  · intro h
    refine ⟨?_, ?_, ?_⟩
    · rw [onStdoutLine, if_pos h]
      rcases hp : parseLine c line with ⟨r, c2⟩
      cases r <;> rfl
    · intro e he
      rw [onStdoutLine, if_pos h]
      rcases hp : parseLine c line with ⟨r, c2⟩
      rw [hp] at he
      cases r with
      | ok ds => cases he
      | error e2 =>
        cases he
        rfl
    · intro ds hds
      rw [onStdoutLine, if_pos h]
      rcases hp : parseLine c line with ⟨r, c2⟩
      rw [hp] at hds
      cases r with
      | error e2 => cases hds
      | ok ds2 =>
        cases hds
        show Except.ok (List.filterMap _ ds) = _
        congr 1
        clear hp
        induction ds with
        | nil => rfl
        | cons d rest ih =>
          show StreamEffect.publishDiagnostic d :: List.filterMap _ rest =
            StreamEffect.publishDiagnostic d :: List.map _ rest
          rw [ih]

/-- C2: single-flight and forced preemption. While a task is running
(`currentTask = some t`): a non-forced invocation's only possible step is
the drop — tasks and current task untouched, the invocation retired, no
error; a forced invocation's only possible step is the `kill()` call on
the running task, which (when the task is live and uninterrupted)
dispatches the termination signal and marks it interrupted. A new process
is spawned only when no task is current, and in every reachable state a
spawn happens only after every previously spawned process has exited —
so the prior task is always terminated before the new one begins. -/
theorem c2_single_flight (s : CoordState) (l : CoordLabel) (s' : CoordState) (i t n : Nat) :
    (Step s l s' → l.actor = some i → s.invs[i]? = some (InvPhase.atCheck false) →
      s.currentTask = some t →
      l = .dropReq i ∧ s'.tasks = s.tasks ∧ s'.currentTask = s.currentTask
        ∧ s'.invs = s.invs.set i .invDone)
    ∧ (Step s l s' → l.actor = some i → s.invs[i]? = some (InvPhase.atCheck true) →
      s.currentTask = some t →
      l = .killCall i t
        ∧ ((taskAt s t).interrupted = false → (taskAt s t).phase = .running →
            (taskAt s' t).interrupted = true))
    ∧ (Step s (.spawn i n) s' → s.currentTask = none)
    ∧ (Reachable s → Inv s)
    ∧ (Reachable s → Step s (.spawn i n) s' →
        ∀ u, u < s.tasks.length → (taskAt s u).phase = .exited) := by
  refine ⟨?_, ?_, ?_, fun h => reachable_inv h, ?_⟩
  · intro hstep hactor hi hc
    cases hstep with
    | invoke force => simp [CoordLabel.actor] at hactor
    | dropReq i0 t0 hi0 hc0 =>
      have hii : i0 = i := by simpa [CoordLabel.actor] using hactor
      subst hii
      exact ⟨rfl, rfl, rfl, rfl⟩
    | killCallLive i0 t0 hi0 hc0 hn0 hr0 =>
      have hii : i0 = i := by simpa [CoordLabel.actor] using hactor
      subst hii
      rw [hi0] at hi
      simp at hi
    | killCallDead i0 t0 hi0 hc0 hd0 =>
      have hii : i0 = i := by simpa [CoordLabel.actor] using hactor
      subst hii
      rw [hi0] at hi
      simp at hi
    | killResolve i0 t0 hi0 =>
      have hii : i0 = i := by simpa [CoordLabel.actor] using hactor
      subst hii
      rw [hi0] at hi
      simp at hi
    | spawn i0 f hi0 hc0 =>
      rw [hc0] at hc
      cases hc
    | procExit t0 hr0 => simp [CoordLabel.actor] at hactor
    | settle i0 t0 hi0 hx0 =>
      have hii : i0 = i := by simpa [CoordLabel.actor] using hactor
      subst hii
      rw [hi0] at hi
      simp at hi
    | externalKill t0 hc0 hn0 hr0 => simp [CoordLabel.actor] at hactor
  · intro hstep hactor hi hc
    cases hstep with
    | invoke force => simp [CoordLabel.actor] at hactor
    | dropReq i0 t0 hi0 hc0 =>
      have hii : i0 = i := by simpa [CoordLabel.actor] using hactor
      subst hii
      rw [hi0] at hi
      simp at hi
    | killCallLive i0 t0 hi0 hc0 hn0 hr0 =>
      have hii : i0 = i := by simpa [CoordLabel.actor] using hactor
      subst hii
      rw [hc0] at hc
      have htt : t0 = t := Option.some_inj.mp hc
      subst htt
      refine ⟨rfl, fun _ _ => ?_⟩
      show (List.getD (s.tasks.set t0 { taskAt s t0 with interrupted := true }) t0
        (⟨ProcPhase.exited, true⟩ : TaskObj)).interrupted = true
      rw [getD_set_self _ _ (taskAt_lt_of_running hr0)]
    | killCallDead i0 t0 hi0 hc0 hd0 =>
      have hii : i0 = i := by simpa [CoordLabel.actor] using hactor
      subst hii
      rw [hc0] at hc
      have htt : t0 = t := Option.some_inj.mp hc
      subst htt
      refine ⟨rfl, fun hn hr => ?_⟩
      exfalso
      rcases hd0 with hd0 | hd0
      · rw [hn] at hd0
        cases hd0
      · rw [hr] at hd0
        cases hd0
    | killResolve i0 t0 hi0 =>
      have hii : i0 = i := by simpa [CoordLabel.actor] using hactor
      subst hii
      rw [hi0] at hi
      simp at hi
    | spawn i0 f hi0 hc0 =>
      rw [hc0] at hc
      cases hc
    | procExit t0 hr0 => simp [CoordLabel.actor] at hactor
    | settle i0 t0 hi0 hx0 =>
      have hii : i0 = i := by simpa [CoordLabel.actor] using hactor
      subst hii
      rw [hi0] at hi
      simp at hi
    | externalKill t0 hc0 hn0 hr0 => simp [CoordLabel.actor] at hactor
  · intro hstep
    cases hstep with
    | spawn i0 f hi0 hc0 => exact hc0
  · intro hreach hstep u hu
    have hinv := reachable_inv hreach
    have hc : s.currentTask = none := by
      cases hstep with
      | spawn i0 f hi0 hc0 => exact hc0
    cases hph : (taskAt s u).phase with
    | running =>
      exfalso
      have := hinv.2.1 u hu hph
      rw [hc] at this
      cases this
    | exited => rfl

/-! ## Witnesses and concrete evaluation data -/

/-- A coordinator state with one running task and one pending non-forced
invocation at its policy check. -/
def c2WitnessState : CoordState := ⟨1, some 0, [⟨.running, false⟩], [.atCheck false]⟩

theorem c2_witness :
    (CoordLabel.dropReq 0 = .dropReq 0
      ∧ ({ c2WitnessState with invs := c2WitnessState.invs.set 0 InvPhase.invDone }).tasks
          = c2WitnessState.tasks
      ∧ ({ c2WitnessState with invs := c2WitnessState.invs.set 0 InvPhase.invDone }).currentTask
          = c2WitnessState.currentTask
      ∧ ({ c2WitnessState with invs := c2WitnessState.invs.set 0 InvPhase.invDone }).invs
          = c2WitnessState.invs.set 0 .invDone)
    ∧ Inv initState := by
  refine ⟨(c2_single_flight c2WitnessState (.dropReq 0)
      { c2WitnessState with invs := c2WitnessState.invs.set 0 InvPhase.invDone } 0 0 0).1
      (Step.dropReq c2WitnessState 0 0 rfl rfl) rfl rfl rfl, ?_⟩
  exact (c2_single_flight initState (.invoke false) initState 0 0 0).2.2.2.1 Reachable.init

/-- The non-primary labelled span used to instantiate the amended C1. -/
def c1WitnessSpan : CompilerMessageSpan :=
  ⟨8, 3, false, "src/lib.rs", false, some "lbl", 7, 7⟩

theorem c1_witness :
    complexSpanDiagnostic 1 c1ExampleMessage c1WitnessSpan =
      some ⟨"src/lib.rs", ⟨rangeOfSpan c1WitnessSpan, "(1) E0308: lbl", toSeverity "error"⟩⟩
    ∧ complexSpanDiagnostic 1 c1ExampleMessage
        ⟨8, 3, false, "src/lib.rs", false, none, 7, 7⟩ = none := by
  have h := c1_nonprimary_span_rules 1 c1ExampleMessage c1WitnessSpan
  have h2 := c1_nonprimary_span_rules 1 c1ExampleMessage
    ⟨8, 3, false, "src/lib.rs", false, none, 7, 7⟩
  exact ⟨h.2.1 rfl rfl, h2.2.2 rfl rfl⟩

theorem c4_witness :
    CargoTask.kill ⟨some 7, false⟩ = (.resolved, [7], ⟨some 7, true⟩)
    ∧ CargoTask.kill ⟨some 7, true⟩ = (.pending, [], ⟨some 7, true⟩) := by
  exact ⟨(c4_kill_behavior ⟨some 7, false⟩ 7).1 rfl rfl,
    (c4_kill_behavior ⟨some 7, true⟩ 7).2.1 (Or.inl rfl)⟩

theorem c5_witness :
    invokeCargoCheckWithArgs 101 ["--tests"] = ⟨1, "rustc", ["--tests", "--", "-Zno-trans"]⟩
    ∧ invokeCargoCheckWithArgs 0 ["--tests"] = ⟨1, "check", ["--tests"]⟩
    ∧ totalProbes (runCheckInvocations [0, 101] ["--tests"]) = 2 := by
  exact ⟨(c5_probe_each_invocation 101 ["--tests"] [0, 101]).2.2.1 (by decide),
    (c5_probe_each_invocation 0 ["--tests"] [0, 101]).2.1 rfl,
    (c5_probe_each_invocation 101 ["--tests"] [0, 101]).2.2.2⟩

theorem c6_witness :
    onStdoutLine true 0 "   Compiling foo v0.1.0" =
      (.ok [.channelAppendText "   Compiling foo v0.1.0\n"], 0) := by
  exact (c6_stream_routing true 0 "   Compiling foo v0.1.0").1 rfl

/-- A two-span complex message. -/
def c7Message1 : CompilerMessage :=
  { children := [], code := none, level := "warning", message := "w1"
  , spans := [⟨4, 2, false, "a.rs", true, none, 1, 1⟩,
              ⟨6, 5, false, "a.rs", false, some "here", 2, 2⟩] }

/-- A single-span message whose span carries an expansion (also complex). -/
def c7Message2 : CompilerMessage :=
  { children := [], code := none, level := "error", message := "w2"
  , spans := [⟨3, 1, true, "b.rs", true, none, 4, 4⟩] }

theorem c7_witness :
    parseLineEvent 0 (.compilerMessage c7Message1) =
      (.ok (parseComplexCompilerMessage 1 c7Message1), 1)
    ∧ parseLineEvent 1 (.compilerMessage c7Message2) =
      (.ok (parseComplexCompilerMessage 2 c7Message2), 2)
    ∧ (0 : Nat) ≤ (parseLineEvent 0 (.compilerMessage c7Message1)).2 := by
  have h := (c7_counter_monotone 0 (.compilerMessage c7Message1)
    c7Message1 c7Message1 c7Message2).2.2.2 rfl rfl
  exact ⟨h.1, h.2.1,
    (c7_counter_monotone 0 (.compilerMessage c7Message1) c7Message1 c7Message1 c7Message2).2.1⟩

/-- A single-span, non-expanded (simple) message. -/
def c8Message : CompilerMessage :=
  { children := [], code := none, level := "warning", message := "unused variable"
  , spans := [⟨12, 5, false, "src/main.rs", true, none, 3, 3⟩] }

theorem c8_witness :
    ∃ d : FileDiagnostic,
      parseLineEvent 0 (.compilerMessage c8Message) = (.ok [d], 0) ∧
      d.diagnostic.range = ⟨(3 : Int) - 1, (5 : Int) - 1, (3 : Int) - 1, (12 : Int) - 1⟩ := by
  exact c8_simple_range 0 c8Message ⟨12, 5, false, "src/main.rs", true, none, 3, 3⟩ rfl rfl

def c9ArtifactLine : String := "\x7b\"reason\":\"compiler-artifact\"\x7d"

def c9ArtifactJson : Json := Json.obj [("reason", Json.str "compiler-artifact")]

def c9EmptySpansMessage : CompilerMessage :=
  { children := [], code := none, level := "error", message := "m", spans := [] }

theorem c9_witness :
    parseLine 0 c9ArtifactLine = (.ok [], 0)
    ∧ parseLineEvent 3 (.compilerMessage c9EmptySpansMessage) = (.ok [], 3) := by
  exact ⟨(c9_non_message_and_empty_spans 0 c9ArtifactLine c9ArtifactJson
      c9EmptySpansMessage).1 (by rfl) (fun hh => Json.noConfusion hh) (by decide),
    (c9_non_message_and_empty_spans 3 c9ArtifactLine c9ArtifactJson
      c9EmptySpansMessage).2 rfl⟩

theorem c10_witness :
    parseLine 5 "Compiling foo v0.1.0 (file:///projects/foo)" = (.error .jsonError, 5) :=
  c10_invalid_json 5 "Compiling foo v0.1.0 (file:///projects/foo)" (by rfl)

end VscodeRust
